import Mathlib

/-!
Verification of the Treat Your-shelf retrieval-and-ranking pipeline
(`app/services/agent.py`, `app/services/vector_db.py`, `app/services/gemini.py`,
`scripts/ingest_recipes.py`) against its natural-language specification.

The code is shallowly embedded: Python numbers become `ℤ`/`ℚ` (float
arithmetic is modelled by exact rational arithmetic), dynamically typed
payload values become the inductive `PyVal`, and code that can raise becomes
`Except Unit`.  The external `json.loads` is a parameter `jl` of the ranking
functions (any decoder can be plugged in); a small concrete JSON parser
`json_loads` covering integers, escape-free strings and arrays instantiates
it on concrete inputs, agreeing with Python `json.loads` on that fragment.
-/

namespace TreatYourShelf

/-- `needle` occurs contiguously in `hay`. -/
def listInfix (needle : List Char) : List Char → Bool
  | [] => needle.isPrefixOf []
  | c :: cs => needle.isPrefixOf (c :: cs) || listInfix needle cs

/-- Python's `needle in hay` substring test on strings. -/
def strContains (hay needle : String) : Bool :=
  listInfix needle.data hay.data

/-- Python's `s.lower()` (ASCII range, which covers every string the
repository stores), written over the character list so that it evaluates by
kernel reduction. -/
def str_lower (s : String) : String :=
  String.mk (s.data.map Char.toLower)

/-- Python's `s.strip()`: drop whitespace from both ends. -/
def str_trim (s : String) : String :=
  String.mk (((s.data.dropWhile Char.isWhitespace).reverse.dropWhile
    Char.isWhitespace).reverse)

/-- Python's `int()` applied to a real number: truncation toward zero. -/
def pyInt (q : ℚ) : ℤ :=
  if 0 ≤ q then ⌊q⌋ else ⌈q⌉

/-- Round to nearest integer (half rounds up), formalising the `round(...)`
that the spec text prescribes for the Ranker's scores. -/
def specRound (q : ℚ) : ℤ :=
  ⌊q + 1/2⌋

/-- A dynamically-typed Python value as stored in a recipe payload field:
a string, a number, or a list (the fragment of values the repository stores
in `ingredients`/`directions`). -/
inductive PyVal where
  | str (s : String)
  | num (n : ℤ)
  | list (l : List PyVal)

/-- Python iteration `for i in v`: lists yield their elements, strings yield
their characters (as one-character strings), numbers raise `TypeError`. -/
def py_iter : PyVal → Except Unit (List PyVal)
  | .str s => .ok (s.data.map fun c => .str (String.mk [c]))
  | .list l => .ok l
  | .num _ => .error ()

/-- Python `v.lower()`: defined on strings, raises `AttributeError` otherwise. -/
def py_lower : PyVal → Except Unit String
  | .str s => .ok (str_lower s)
  | _ => .error ()

/-- Python `len(v)` on a decoded payload field (list or string); numbers
raise `TypeError`. -/
def py_len : PyVal → Except Unit ℕ
  | .str s => .ok s.length
  | .list l => .ok l.length
  | .num _ => .error ()

/-- The comprehension `[i.lower() for i in vals]`. -/
def lower_all : List PyVal → Except Unit (List String)
  | [] => .ok []
  | v :: vs =>
    match py_lower v, lower_all vs with
    | .ok s, .ok ss => .ok (s :: ss)
    | .error e, _ => .error e
    | _, .error e => .error e

/-! ### A small concrete JSON parser (to instantiate the decoder parameter) -/

/-- Drop leading JSON whitespace. -/
def skipWs : List Char → List Char
  | c :: cs => if c = ' ' ∨ c = '\t' ∨ c = '\n' ∨ c = '\r' then skipWs cs else c :: cs
  | [] => []

/-- Digits to a natural number, most significant first. -/
def digitsToNat (ds : List Char) : ℕ :=
  ds.foldl (fun n c => 10 * n + (c.toNat - '0'.toNat)) 0

/-- Parse a nonempty run of digits. -/
def parse_nat (cs : List Char) : Option (ℕ × List Char) :=
  let ds := cs.takeWhile Char.isDigit
  if ds = [] then none else some (digitsToNat ds, cs.dropWhile Char.isDigit)

/-- Parse the remainder of a string literal after the opening quote
(escape sequences are outside the stored fragment and rejected). -/
def parse_str_rest : List Char → Option (String × List Char)
  | [] => none
  | c :: rest =>
    if c = '"' then some ("", rest)
    else if c = '\\' then none
    else
      match parse_str_rest rest with
      | some (s, r) => some (String.mk (c :: s.data), r)
      | none => none

mutual

/-- Parse one JSON value (integer, escape-free string, or array). -/
def parse_val : ℕ → List Char → Option (PyVal × List Char)
  | 0, _ => none
  | fuel + 1, cs =>
    match skipWs cs with
    | '"' :: rest =>
      match parse_str_rest rest with
      | some (s, r) => some (.str s, r)
      | none => none
    | '[' :: rest =>
      match skipWs rest with
      | ']' :: rest2 => some (.list [], rest2)
      | rest2 =>
        match parse_items fuel rest2 with
        | some (items, rest3) => some (.list items, rest3)
        | none => none
    | '-' :: rest =>
      match parse_nat rest with
      | some (n, rest2) => some (.num (-(n : ℤ)), rest2)
      | none => none
    | c :: rest =>
      if c.isDigit then
        match parse_nat (c :: rest) with
        | some (n, rest2) => some (.num (n : ℤ), rest2)
        | none => none
      else none
    | [] => none

/-- Parse one or more comma-separated values followed by `]`. -/
def parse_items : ℕ → List Char → Option (List PyVal × List Char)
  | 0, _ => none
  | fuel + 1, cs =>
    match parse_val fuel cs with
    | none => none
    | some (v, rest) =>
      match skipWs rest with
      | ',' :: rest2 =>
        match parse_items fuel rest2 with
        | some (items, rest3) => some (v :: items, rest3)
        | none => none
      | ']' :: rest2 => some ([v], rest2)
      | _ => none

end

/-- Python `json.loads` on the fragment above: full input must be consumed
(up to trailing whitespace); anything else fails, like raising
`json.JSONDecodeError`. -/
def json_loads (s : String) : Option PyVal :=
  match parse_val (s.length + 1) s.data with
  | some (v, rest) => if skipWs rest = [] then some v else none
  | none => none

/-! ### Data model (`app/models.py` and the search-hit dicts) -/

/-- The payload fields `_format_results` reads.  A field's default value is
what the corresponding `payload.get(key, default)` returns when the key is
absent. -/
structure Payload where
  title : String := "Unknown Recipe"
  description : String := ""
  category : String := ""
  skill_level : String := ""
  dietary_tags : List String := []
  ingredients : PyVal := .list []
  directions : PyVal := .list []

/-- One raw search hit as returned by `vector_db.search_recipes`:
`{"id": ..., "score": ..., "payload": ...}`. -/
structure SearchHit where
  id : ℤ := 0
  score : ℚ := 0
  payload : Payload := {}

/-- The dict appended to `recipes` for each hit in `_format_results`. -/
structure RecipeResult where
  id : ℤ
  title : String
  «match» : ℤ
  ingredients : PyVal
  description : String
  directions : PyVal
  category : String
  dietary_tags : List String
  skill_level : String

/-- `UserPreferences` (`app/models.py`): list fields default to `[]`,
optional strings to `None`. -/
structure UserPreferences where
  dietary_restrictions : List String := []
  cuisine_preferences : List String := []
  allergies : List String := []
  meal_type : Option String := none
  skill_level : Option String := none
  additional_prompt : Option String := none

/-! ### The Ranker (`_format_results`, `agent.py` lines 36-91) -/

/-- Number of detected ingredients matched: `sum(1 for d in detected_lower
if any(d in ri for ri in recipe_ing_lower))` (lines 57-59). -/
def count_matches (detected_lower recipe_ing_lower : List String) : ℕ :=
  detected_lower.countP fun d => recipe_ing_lower.any fun ri => strContains ri d

/-- `match_pct = min(int((matches / total_recipe_ings) * 100), 100)` (line 61). -/
def match_pct_of (matched total_recipe_ings : ℕ) : ℤ :=
  min (pyInt (((matched : ℚ) / (total_recipe_ings : ℚ)) * 100)) 100

/-- `vector_match = int(score * 100)` (line 64). -/
def vector_match_of (score : ℚ) : ℤ :=
  pyInt (score * 100)

/-- `blended_match = int(0.4 * match_pct + 0.6 * vector_match)` then
`min(max(blended_match, 0), 100)` (lines 65-66). -/
def blended_of (match_pct vector_match : ℤ) : ℤ :=
  min (max (pyInt ((0.4 : ℚ) * (match_pct : ℚ) + (0.6 : ℚ) * (vector_match : ℚ))) 0) 100

/-- Decoding of a payload field (lines 47-52 and 69-74): a string is passed
to `json.loads`, and if that fails the raw string becomes a one-element
list; non-strings are kept as they are. -/
def decode_field (jl : String → Option PyVal) : PyVal → PyVal
  | .str s =>
    match jl s with
    | some v => v
    | none => .list [.str s]
  | v => v

/-- The body of the `for r in results` loop of `_format_results`
(lines 43-88), for one hit.  `jl` is the `json.loads` decoder. -/
def process_hit (jl : String → Option PyVal) (r : SearchHit)
    (ingredient_names : List String) : Except Unit RecipeResult :=
  let raw_ingredients := decode_field jl r.payload.ingredients
  match py_iter raw_ingredients with
  | .error e => .error e
  | .ok vals =>
    match lower_all vals with
    | .error e => .error e
    | .ok recipe_ing_lower =>
      match py_len raw_ingredients with
      | .error e => .error e
      | .ok len_raw =>
        let detected_lower := ingredient_names.map str_lower
        let num_matches := count_matches detected_lower recipe_ing_lower
        let total_recipe_ings := max len_raw 1
        let match_pct := match_pct_of num_matches total_recipe_ings
        let vector_match := vector_match_of r.score
        let blended_match := blended_of match_pct vector_match
        let raw_directions := decode_field jl r.payload.directions
        .ok { id := r.id, title := r.payload.title, «match» := blended_match,
              ingredients := raw_ingredients, description := r.payload.description,
              directions := raw_directions, category := r.payload.category,
              dietary_tags := r.payload.dietary_tags,
              skill_level := r.payload.skill_level }

/-- Stable insertion used to model Python's stable
`recipes.sort(key=lambda x: x["match"], reverse=True)` (line 90):
a new element goes before the first strictly smaller `match` value and after
all earlier elements with `≥` its value.  Stable descending order is unique,
so this captures exactly the list the Python sort produces. -/
def insert_desc (r : RecipeResult) : List RecipeResult → List RecipeResult
  | [] => [r]
  | y :: ys => if y.«match» ≤ r.«match» then r :: y :: ys else y :: insert_desc r ys

/-- Stable descending-by-`match` insertion sort (line 90). -/
def sort_recipes : List RecipeResult → List RecipeResult
  | [] => []
  | x :: xs => insert_desc x (sort_recipes xs)

/-- The loop of `_format_results`: format each hit in order, raising at the
first malformed one. -/
def format_loop (jl : String → Option PyVal) (results : List SearchHit)
    (ingredient_names : List String) : Except Unit (List RecipeResult) :=
  match results with
  | [] => .ok []
  | r :: rs =>
    match process_hit jl r ingredient_names with
    | .error e => .error e
    | .ok rec =>
      match format_loop jl rs ingredient_names with
      | .error e => .error e
      | .ok recs => .ok (rec :: recs)

/-- `_format_results` (lines 36-91): format every hit, then sort by
descending `match`. -/
def _format_results (jl : String → Option PyVal) (results : List SearchHit)
    (ingredient_names : List String) : Except Unit (List RecipeResult) :=
  match format_loop jl results ingredient_names with
  | .ok recipes => .ok (sort_recipes recipes)
  | .error e => .error e

/-! ### The Filter Builder (`vector_db.py` lines 94-124) and search kwargs -/

/-- One `must` condition of the Actian filter DSL used by the repository:
`Field(name).eq(boolean)` or `Field(name).lte(bound)`. -/
inductive FieldCond where
  | eq (field : String) (value : Bool)
  | lte (field : String) (bound : ℤ)
deriving DecidableEq

/-- A `Filter` is its list of `must` conditions (each `f.must(c)` appends). -/
abbrev Filter := List FieldCond

/-- A payload field value a filter condition can look at. -/
inductive FieldVal where
  | bool (b : Bool)
  | int (n : ℤ)
deriving DecidableEq

/-- Satisfaction of one condition against a payload (a partial map from
field names to values). -/
def cond_holds (payload_of : String → Option FieldVal) : FieldCond → Prop
  | .eq f v => payload_of f = some (.bool v)
  | .lte f b => ∃ n : ℤ, payload_of f = some (.int n) ∧ n ≤ b

/-- A filter matches a payload iff every `must` condition holds (conjunction). -/
def filter_holds (payload_of : String → Option FieldVal) (f : Filter) : Prop :=
  ∀ c ∈ f, cond_holds payload_of c

/-- `level_map.get(skill_level.lower(), 999)` (lines 120-121). -/
def level_map (s : String) : ℤ :=
  if str_lower s = "beginner" then 4
  else if str_lower s = "intermediate" then 8
  else if str_lower s = "advanced" then 999
  else 999

/-- Truthiness of an optional Python string (`None` and `""` are falsy). -/
def opt_truthy : Option String → Bool
  | none => false
  | some s => !s.isEmpty

/-- `build_recipe_filter` (lines 94-124): one `tag_<normalized>` equality per
dietary restriction, plus an upper bound on `num_steps` when a skill level is
given.  An empty or `None` restriction list adds no condition. -/
def build_recipe_filter (dietary_restrictions : List String)
    (skill_level : Option String) : Filter :=
  let f : Filter := []
  let f := f ++ dietary_restrictions.map fun tag =>
    FieldCond.eq ("tag_" ++ str_trim (str_lower tag)) true
  match skill_level with
  | some s => if s.isEmpty then f else f ++ [FieldCond.lte "num_steps" (level_map s)]
  | none => f

/-- `search_recipes` passes the filter to the store only when it is nonempty
(`if filter_obj and not filter_obj.is_empty()`, lines 87-88). -/
def search_filter_arg (f : Filter) : Option Filter :=
  if f = [] then none else some f

/-! ### The Resilient API Caller (`gemini.py` lines 13-15, 46-50, 63-93) -/

/-- `_MAX_RETRIES = 3`. -/
def MAX_RETRIES : ℕ := 3

/-- `_BASE_BACKOFF = 2` seconds. -/
def BASE_BACKOFF : ℕ := 2

/-- `_is_retryable` (lines 46-50): the lower-cased error text contains one of
the rate-limit / transient-failure markers. -/
def _is_retryable (exc : String) : Bool :=
  ["429", "resource_exhausted", "503", "500", "unavailable", "deadline"].any
    fun code => strContains (str_lower exc) code

/-- The retry loop of `analyze_image`/`generate_recipes` (lines 63-93):
attempt the call; on an error, retry after `_BASE_BACKOFF * 2 ** attempt`
seconds when the error is retryable and attempts remain, otherwise re-raise.
`f n` is the outcome of the call on attempt index `n`; the second component
collects the backoff waits performed, in order.  The fuel counts the loop
iterations left; the `fuel = 0` branch is unreachable for positive fuel since
the last iteration always returns or raises. -/
def retry_loop (f : ℕ → Except String α) : ℕ → ℕ → Except String α × List ℕ
  | 0, _ => (.error "", [])
  | fuel + 1, attempt =>
    match f attempt with
    | .ok v => (.ok v, [])
    | .error e =>
      if attempt < MAX_RETRIES - 1 ∧ _is_retryable e then
        let r := retry_loop f fuel (attempt + 1)
        (r.1, BASE_BACKOFF * 2 ^ attempt :: r.2)
      else (.error e, [])

/-- A retry-wrapped external call: run the loop `for attempt in range(_MAX_RETRIES)`. -/
def retry_call (f : ℕ → Except String α) : Except String α × List ℕ :=
  retry_loop f MAX_RETRIES 0

/-! ### The Dietary Tag Inferencer (`scripts/ingest_recipes.py` lines 30-255) -/

/-- `MEAT_KEYWORDS`. -/
def MEAT_KEYWORDS : List String :=
  ["chicken", "beef", "pork", "lamb", "turkey", "bacon", "sausage", "salami",
   "prosciutto", "pepperoni", "ham", "steak", "veal", "duck", "goose",
   "venison", "bison", "rabbit", "ground beef", "ground turkey",
   "ground pork", "ground chicken", "chuck", "sirloin", "tenderloin", "rib",
   "brisket"]

/-- `SEAFOOD_KEYWORDS`. -/
def SEAFOOD_KEYWORDS : List String :=
  ["shrimp", "salmon", "fish", "tuna", "cod", "tilapia", "crab", "lobster",
   "clam", "mussel", "oyster", "scallop", "anchovy", "anchovies", "sardine",
   "trout", "halibut", "mahi", "swordfish", "calamari", "squid", "octopus",
   "prawn", "crawfish", "crayfish"]

/-- `DAIRY_KEYWORDS`. -/
def DAIRY_KEYWORDS : List String :=
  ["milk", "cream", "butter", "cheese", "yogurt", "yoghurt", "sour cream",
   "cream cheese", "whey", "ghee", "casein", "half-and-half", "half and half",
   "ricotta", "mozzarella", "parmesan", "cheddar", "provolone", "feta",
   "brie", "gouda", "gruyere", "mascarpone", "cottage cheese",
   "whipped cream", "heavy cream", "ice cream"]

/-- `EGG_KEYWORDS`. -/
def EGG_KEYWORDS : List String :=
  ["egg", "eggs", "egg white", "egg yolk", "mayonnaise", "mayo"]

/-- `GLUTEN_KEYWORDS`. -/
def GLUTEN_KEYWORDS : List String :=
  ["flour", "bread", "pasta", "noodle", "noodles", "spaghetti", "macaroni",
   "penne", "fettuccine", "linguine", "lasagna", "tortilla", "wrap", "pita",
   "baguette", "croissant", "breadcrumb", "breadcrumbs", "panko", "crouton",
   "croutons", "soy sauce", "barley", "rye", "wheat", "couscous", "orzo",
   "muffin", "cake", "cookie", "biscuit", "cracker", "pretzel", "bagel",
   "roll", "bun", "pie crust", "pastry", "phyllo", "wonton", "manicotti",
   "ravioli", "tortellini"]

/-- `NUT_KEYWORDS`. -/
def NUT_KEYWORDS : List String :=
  ["peanut", "peanuts", "peanut butter", "almond", "almonds", "walnut",
   "walnuts", "cashew", "cashews", "pecan", "pecans", "pistachio",
   "pistachios", "macadamia", "hazelnut", "hazelnuts", "pine nut",
   "pine nuts", "brazil nut"]

/-- `SHELLFISH_KEYWORDS`. -/
def SHELLFISH_KEYWORDS : List String :=
  ["shrimp", "crab", "lobster", "clam", "clams", "mussel", "mussels",
   "oyster", "oysters", "scallop", "scallops", "crawfish", "crayfish",
   "prawn", "prawns"]

/-- `_text_contains_any` (lines 207-212). -/
def _text_contains_any (text : String) (keywords : List String) : Bool :=
  keywords.any fun kw => strContains text kw

/-- The dict returned by `infer_dietary_tags`: the tag list plus one boolean
flag per known tag (field names mirror the dict keys). -/
structure TagInfo where
  dietary_tags : List String
  tag_vegetarian : Bool
  tag_vegan : Bool
  «tag_gluten-free» : Bool
  «tag_dairy-free» : Bool
  «tag_nut-free» : Bool
  «tag_shellfish-free» : Bool

/-- `infer_dietary_tags` (lines 215-255): lower-case the space-joined
ingredient names into one text blob, detect keyword groups by substring, and
derive the tags and flags. -/
def infer_dietary_tags (ingredients : List String) : TagInfo :=
  let text := str_lower (String.intercalate " " ingredients)
  let has_meat := _text_contains_any text MEAT_KEYWORDS
  let has_seafood := _text_contains_any text SEAFOOD_KEYWORDS
  let has_dairy := _text_contains_any text DAIRY_KEYWORDS
  let has_eggs := _text_contains_any text EGG_KEYWORDS
  let has_gluten := _text_contains_any text GLUTEN_KEYWORDS
  let has_nuts := _text_contains_any text NUT_KEYWORDS
  let has_shellfish := _text_contains_any text SHELLFISH_KEYWORDS
  let tags :=
    (if !has_meat && !has_seafood then ["vegetarian"] else []) ++
    (if !has_meat && !has_seafood && !has_dairy && !has_eggs then ["vegan"] else []) ++
    (if !has_gluten then ["gluten-free"] else []) ++
    (if !has_dairy then ["dairy-free"] else []) ++
    (if !has_nuts then ["nut-free"] else []) ++
    (if !has_shellfish then ["shellfish-free"] else [])
  { dietary_tags := tags
    tag_vegetarian := tags.contains "vegetarian"
    tag_vegan := tags.contains "vegan"
    «tag_gluten-free» := tags.contains "gluten-free"
    «tag_dairy-free» := tags.contains "dairy-free"
    «tag_nut-free» := tags.contains "nut-free"
    «tag_shellfish-free» := tags.contains "shellfish-free" }

/-- The text blob `infer_dietary_tags` scans: the lower-cased space-join of
the ingredient names. -/
def tag_text (ingredient_names : List String) : String :=
  str_lower (String.intercalate " " ingredient_names)

/-- `infer_skill_level` (lines 258-265). -/
def infer_skill_level (num_steps : ℤ) : String :=
  if num_steps ≤ 4 then "beginner"
  else if num_steps ≤ 8 then "intermediate"
  else "advanced"

/-! ### The Query Composer and Pipeline Orchestrator (`agent.py` lines 94-164) -/

/-- The query-text construction of `_search_with_preferences` (lines 100-108). -/
def query_text (ingredient_names : List String) (p : UserPreferences) : String :=
  let query_parts := ["Ingredients: " ++ String.intercalate ", " ingredient_names]
  let query_parts := if p.cuisine_preferences ≠ [] then
      query_parts ++ ["Cuisine: " ++ String.intercalate ", " p.cuisine_preferences]
    else query_parts
  let query_parts := if opt_truthy p.meal_type then
      query_parts ++ ["Meal type: " ++ p.meal_type.getD ""]
    else query_parts
  let query_parts := if opt_truthy p.additional_prompt then
      query_parts ++ [p.additional_prompt.getD ""]
    else query_parts
  String.intercalate ". " query_parts

/-- Modelled from the spec (§4.4, claim C7): the Query Composer's output with
every clause, the ingredients clause included, present only when its source
data is non-empty.  Used only to compare the code's `query_text` against the
spec's description. -/
def spec_query_text (ingredient_names : List String) (p : UserPreferences) : String :=
  String.intercalate ". "
    ((if ingredient_names ≠ [] then
        ["Ingredients: " ++ String.intercalate ", " ingredient_names] else []) ++
     (if p.cuisine_preferences ≠ [] then
        ["Cuisine: " ++ String.intercalate ", " p.cuisine_preferences] else []) ++
     (if opt_truthy p.meal_type then ["Meal type: " ++ p.meal_type.getD ""] else []) ++
     (if opt_truthy p.additional_prompt then [p.additional_prompt.getD ""] else []))

/-- An external call made by the pipeline that the claims count. -/
inductive ApiCall where
  | embed
  | search
deriving DecidableEq

/-- The final response dict of `run_direct_pipeline`. -/
structure PipelineOutput where
  detected_ingredients : List String
  recipes : List RecipeResult

/-- `_search_with_preferences` (lines 94-132): compose the query, embed it
(one external call), build the filter, search the store (one external call),
format the results.  `embed_fn`/`search_fn` abstract the external embedder
and vector store; `search_fn` receives the query vector, `top_k = 10` and
the filter argument. -/
def _search_with_preferences (jl : String → Option PyVal)
    (embed_fn : String → List ℚ)
    (search_fn : List ℚ → ℕ → Option Filter → List SearchHit)
    (ingredient_names : List String) (p : UserPreferences) :
    Except Unit (List RecipeResult) × List ApiCall :=
  let qt := query_text ingredient_names p
  let query_vector := embed_fn qt
  let db_filter := build_recipe_filter p.dietary_restrictions p.skill_level
  let results := search_fn query_vector 10 (search_filter_arg db_filter)
  (_format_results jl results ingredient_names, [ApiCall.embed, ApiCall.search])

/-- `run_direct_pipeline` (lines 138-164), with the vision result abstracted
as the detected ingredient-name list: short-circuit to an empty response on
zero detected ingredients, otherwise search and return names plus ranked
recipes.  The second component lists the embedding/search calls performed. -/
def run_direct_pipeline (jl : String → Option PyVal)
    (embed_fn : String → List ℚ)
    (search_fn : List ℚ → ℕ → Option Filter → List SearchHit)
    (ingredient_names : List String) (p : UserPreferences) :
    Except Unit PipelineOutput × List ApiCall :=
  if ingredient_names = [] then
    (.ok { detected_ingredients := [], recipes := [] }, [])
  else
    match _search_with_preferences jl embed_fn search_fn ingredient_names p with
    | (.ok recipes, calls) =>
      (.ok { detected_ingredients := ingredient_names, recipes := recipes }, calls)
    | (.error e, calls) => (.error e, calls)

/-- A concrete search hit (vector score `1/2`, one ingredient `"egg"`) used
to exercise the Ranker on explicit data. -/
def sample_hit : SearchHit :=
  { id := 0, score := mkRat 1 2, payload := { ingredients := .list [.str "egg"] } }

/-- The record the Ranker produces for `sample_hit` with detected
ingredients `["egg"]`: full overlap (`match_pct = 100`), `vector_match =
50`, `blended = int(0.4*100 + 0.6*50) = 70`. -/
def sample_ranked : RecipeResult :=
  { id := 0, title := "Unknown Recipe", «match» := 70,
    ingredients := .list [.str "egg"], description := "",
    directions := .list [], category := "", dietary_tags := [],
    skill_level := "" }

/-! ## Helper lemmas: computing the rational score formulas in `ℤ` -/

/-- Truncation of an exact integer-over-natural quotient is `Int.tdiv`. -/
theorem pyInt_intCast_div_natCast (a : ℤ) (b : ℕ) :
    pyInt ((a : ℚ) / (b : ℚ)) = a.tdiv b := by
  rcases Nat.eq_zero_or_pos b with hb | hb
  · subst hb
    simp [pyInt]
  · rcases le_or_lt 0 a with ha | ha
    · have h0 : (0 : ℚ) ≤ (a : ℚ) / (b : ℚ) :=
        div_nonneg (by exact_mod_cast ha) (by positivity)
      rw [pyInt, if_pos h0, Rat.floor_intCast_div_natCast,
        Int.tdiv_eq_ediv ha (by exact_mod_cast Nat.zero_le b)]
    · have hb' : (0 : ℚ) < (b : ℚ) := by exact_mod_cast hb
      have h0 : (a : ℚ) / (b : ℚ) < 0 :=
        div_neg_of_neg_of_pos (by exact_mod_cast ha) hb'
      rw [pyInt, if_neg (not_le.mpr h0)]
      have hceil : ⌈(a : ℚ) / (b : ℚ)⌉ = -⌊((-a : ℤ) : ℚ) / (b : ℚ)⌋ := by
        rw [show ((-a : ℤ) : ℚ) / (b : ℚ) = -((a : ℚ) / (b : ℚ)) by push_cast; ring,
          Int.floor_neg, neg_neg]
      rw [hceil, Rat.floor_intCast_div_natCast]
      have h1 : (-a).tdiv (b : ℤ) = (-a) / (b : ℤ) :=
        Int.tdiv_eq_ediv (by omega) (by omega)
      have h2 : (-a).tdiv (b : ℤ) = -(a.tdiv (b : ℤ)) := Int.neg_tdiv a b
      omega

/-- `match_pct` computed in `ℕ`. -/
theorem match_pct_of_eval (m t : ℕ) :
    match_pct_of m t = min (((100 * m) / t : ℕ) : ℤ) 100 := by
  unfold match_pct_of
  have h : ((m : ℚ) / (t : ℚ)) * 100 = (((100 * m : ℕ) : ℤ) : ℚ) / ((t : ℕ) : ℚ) := by
    push_cast; ring
  rw [h, pyInt_intCast_div_natCast, ← Int.ofNat_tdiv]

/-- `vector_match` computed in `ℤ` for an explicit rational score. -/
theorem vector_match_of_mkRat (n : ℤ) (d : ℕ) :
    vector_match_of (mkRat n d) = (100 * n).tdiv d := by
  unfold vector_match_of
  have h : mkRat n d * 100 = ((100 * n : ℤ) : ℚ) / (d : ℚ) := by
    rw [Rat.mkRat_eq_div]; push_cast; ring
  rw [h, pyInt_intCast_div_natCast]

/-- `blended_match` computed in `ℤ`. -/
theorem blended_of_eval (m v : ℤ) :
    blended_of m v = min (max ((2 * m + 3 * v).tdiv 5) 0) 100 := by
  unfold blended_of
  have h : (0.4 : ℚ) * (m : ℚ) + (0.6 : ℚ) * (v : ℚ) =
      ((2 * m + 3 * v : ℤ) : ℚ) / ((5 : ℕ) : ℚ) := by
    push_cast
    norm_num
    ring
  rw [h, pyInt_intCast_div_natCast]
  norm_cast

/-- The spec's `round` on an explicit quotient, computed in `ℤ`. -/
theorem specRound_eval (a : ℤ) (b : ℕ) :
    specRound ((a : ℚ) / (b : ℚ)) = (2 * a + b) / ((2 * b : ℕ) : ℤ) := by
  rcases Nat.eq_zero_or_pos b with hb | hb
  · subst hb
    have h1 : ((a : ℚ) / ((0 : ℕ) : ℚ) + 1 / 2) = ((1 : ℤ) : ℚ) / ((2 : ℕ) : ℚ) := by
      norm_num
    rw [specRound, h1, Rat.floor_intCast_div_natCast]
    simp
  · rw [specRound, show ((a : ℚ) / (b : ℚ) + 1 / 2) =
        ((2 * a + b : ℤ) : ℚ) / ((2 * b : ℕ) : ℚ) by
      have hb' : ((b : ℕ) : ℚ) ≠ 0 := by positivity
      field_simp
      ring]
    rw [Rat.floor_intCast_div_natCast]

/-! ## Claim C1: the blended score formula -/

/-- C1 counterexample: the claim's `round`-based formulas disagree with the
code.  For a hit with `vector_score = 1/100` and no matched ingredients
(`match_pct = 0`), the claim computes `blended = round(0.4*0 + 0.6*1) = 1`,
but the Ranker computes `int(0.6) = 0`: `int()` truncates, it does not
round.  The last conjunct evaluates the Ranker itself on such a hit. -/
theorem C1_round_counterexample :
    vector_match_of (mkRat 1 100) = 1
    ∧ blended_of 0 (vector_match_of (mkRat 1 100)) = 0
    ∧ min (max (specRound ((0.4 : ℚ) * ((0 : ℤ) : ℚ) + (0.6 : ℚ) * ((1 : ℤ) : ℚ))) 0) 100 = 1
    ∧ blended_of 0 (vector_match_of (mkRat 1 100)) ≠
        min (max (specRound ((0.4 : ℚ) * ((0 : ℤ) : ℚ) + (0.6 : ℚ) * ((1 : ℤ) : ℚ))) 0) 100
    ∧ (∃ r, process_hit json_loads
          { id := 7, score := mkRat 1 100,
            payload := { ingredients := PyVal.list [PyVal.str "rice"] } } [] = .ok r
        ∧ r.«match» = 0) := by
  have hv : vector_match_of (mkRat 1 100) = 1 := by
    rw [vector_match_of_mkRat]; decide
  have hb : blended_of 0 1 = 0 := by
    rw [blended_of_eval]; decide
  have hs : specRound ((0.4 : ℚ) * ((0 : ℤ) : ℚ) + (0.6 : ℚ) * ((1 : ℤ) : ℚ)) = 1 := by
    rw [show (0.4 : ℚ) * ((0 : ℤ) : ℚ) + (0.6 : ℚ) * ((1 : ℤ) : ℚ) =
        ((3 : ℤ) : ℚ) / ((5 : ℕ) : ℚ) by norm_num]
    rw [specRound_eval]
    decide
  refine ⟨hv, by rw [hv]; exact hb, by rw [hs]; decide, by rw [hv, hb, hs]; decide, ?_⟩
  have h1 : count_matches [] [str_lower "rice"] = 0 := rfl
  have h2 : match_pct_of 0 1 = 0 := by rw [match_pct_of_eval]; decide
  refine ⟨{ id := 7, title := "Unknown Recipe", «match» := 0,
            ingredients := .list [.str "rice"], description := "",
            directions := .list [], category := "", dietary_tags := [],
            skill_level := "" }, ?_, rfl⟩
  simp [process_hit, decode_field, py_iter, lower_all, py_lower, py_len, h1, h2, hv, hb]

/-- C1 amended: with truncation in place of rounding the claim holds.  For
nonnegative scores the Ranker computes `vector_match = ⌊100*vector_score⌋`
and `blended = ⌊0.4*match_pct + 0.6*vector_match⌋` clamped to `[0,100]`
(the lower clamp being redundant there), and `match_pct = 50` with
`vector_score = 0.8` still yields `blended = 68`. -/
theorem C1_truncation :
    (∀ m v : ℤ, 0 ≤ m → 0 ≤ v →
      blended_of m v = min ⌊(0.4 : ℚ) * (m : ℚ) + (0.6 : ℚ) * (v : ℚ)⌋ 100)
    ∧ (∀ q : ℚ, 0 ≤ q → vector_match_of q = ⌊q * 100⌋)
    ∧ blended_of 50 (vector_match_of (0.8 : ℚ)) = 68 := by
  refine ⟨fun m v hm hv => ?_, fun q hq => ?_, ?_⟩
  · have h0 : (0 : ℚ) ≤ (0.4 : ℚ) * (m : ℚ) + (0.6 : ℚ) * (v : ℚ) := by
      have hm' : (0 : ℚ) ≤ (m : ℚ) := by exact_mod_cast hm
      have hv' : (0 : ℚ) ≤ (v : ℚ) := by exact_mod_cast hv
      positivity
    rw [blended_of, pyInt, if_pos h0]
    have hfl : (0 : ℤ) ≤ ⌊(0.4 : ℚ) * (m : ℚ) + (0.6 : ℚ) * (v : ℚ)⌋ :=
      Int.floor_nonneg.mpr h0
    omega
  · have h0 : (0 : ℚ) ≤ q * 100 := by positivity
    rw [vector_match_of, pyInt, if_pos h0]
  · have h08 : vector_match_of (0.8 : ℚ) = 80 := by
      rw [show (0.8 : ℚ) = mkRat 8 10 by rw [Rat.mkRat_eq_div]; norm_num,
        vector_match_of_mkRat]
      decide
    rw [h08, blended_of_eval]
    decide

/-- C1 witness: the amended statement applied at `match_pct = 50`,
`vector_match = 80` and at the score `8/10`. -/
theorem C1_truncation_witness :
    ((0 : ℤ) ≤ 50 ∧ (0 : ℤ) ≤ 80 ∧
      blended_of 50 80 = min ⌊(0.4 : ℚ) * ((50 : ℤ) : ℚ) + (0.6 : ℚ) * ((80 : ℤ) : ℚ)⌋ 100)
    ∧ ((0 : ℚ) ≤ mkRat 8 10 ∧ vector_match_of (mkRat 8 10) = ⌊mkRat 8 10 * 100⌋) :=
  ⟨⟨by decide, by decide, C1_truncation.1 50 80 (by decide) (by decide)⟩,
   ⟨by decide, C1_truncation.2.1 (mkRat 8 10) (by decide)⟩⟩

/-! ## Claim C2: the ingredient-overlap score formula -/

/-- C2 counterexample: with 2 of 3 recipe ingredients matched the claim's
formula gives `min(100, round(100*2/3)) = 67`, but the Ranker computes
`min(int((2/3)*100), 100) = 66`: truncation again, not rounding. -/
theorem C2_round_counterexample :
    count_matches ["aa", "bb"] ["aa", "bb", "zz"] = 2
    ∧ match_pct_of (count_matches ["aa", "bb"] ["aa", "bb", "zz"]) (max 3 1) = 66
    ∧ min 100 (specRound (100 * (((2 : ℕ) : ℚ) / ((max 3 1 : ℕ) : ℚ)))) = 67
    ∧ match_pct_of (count_matches ["aa", "bb"] ["aa", "bb", "zz"]) (max 3 1) ≠
        min 100 (specRound (100 * (((2 : ℕ) : ℚ) / ((max 3 1 : ℕ) : ℚ)))) := by
  have hc : count_matches ["aa", "bb"] ["aa", "bb", "zz"] = 2 := by decide
  have hm : match_pct_of 2 (max 3 1) = 66 := by
    rw [match_pct_of_eval]; decide
  have hs : specRound (100 * (((2 : ℕ) : ℚ) / ((max 3 1 : ℕ) : ℚ))) = 67 := by
    rw [show (100 * (((2 : ℕ) : ℚ) / ((max 3 1 : ℕ) : ℚ))) =
        ((200 : ℤ) : ℚ) / ((3 : ℕ) : ℚ) by norm_num]
    rw [specRound_eval]
    decide
  exact ⟨hc, by rw [hc]; exact hm, by rw [hs]; decide, by rw [hc, hm, hs]; decide⟩

/-- C2 amended: the ingredient-overlap score equals
`min(100, (100 * matched_count) / max(1, total))` with truncating division,
where `matched_count` counts the detected names occurring as substrings of
some recipe ingredient (both sides lower-cased). -/
theorem C2_truncation :
    (∀ matched total : ℕ,
      match_pct_of matched (max total 1) =
        min 100 (((100 * matched) / max total 1 : ℕ) : ℤ))
    ∧ (∀ detected_lower recipe_ing_lower : List String,
      count_matches detected_lower recipe_ing_lower =
        (detected_lower.filter fun d =>
          recipe_ing_lower.any fun ri => strContains ri d).length) := by
  constructor
  · intro m t
    rw [match_pct_of_eval, min_comm]
  · intro dl rl
    exact List.countP_eq_length_filter _ _

/-! ## Claims C8 and C10: the Dietary Tag Inferencer -/

/-- Membership in a conditional singleton. -/
theorem mem_ite_nil {α : Type} (c : Prop) [Decidable c] (x y : α) :
    (x ∈ if c then [y] else ([] : List α)) ↔ c ∧ x = y := by
  split <;> simp_all

/-- `vegetarian` is emitted iff no meat and no seafood keyword is found. -/
theorem mem_vegetarian_iff (names : List String) :
    "vegetarian" ∈ (infer_dietary_tags names).dietary_tags ↔
      _text_contains_any (tag_text names) MEAT_KEYWORDS = false ∧
      _text_contains_any (tag_text names) SEAFOOD_KEYWORDS = false := by
  rw [infer_dietary_tags, tag_text]
  cases h1 : _text_contains_any (str_lower (String.intercalate " " names)) MEAT_KEYWORDS <;>
    cases h2 : _text_contains_any (str_lower (String.intercalate " " names)) SEAFOOD_KEYWORDS <;>
      simp [h1, h2, mem_ite_nil]

/-- `vegan` is emitted iff no meat, seafood, dairy or egg keyword is found. -/
theorem mem_vegan_iff (names : List String) :
    "vegan" ∈ (infer_dietary_tags names).dietary_tags ↔
      _text_contains_any (tag_text names) MEAT_KEYWORDS = false ∧
      _text_contains_any (tag_text names) SEAFOOD_KEYWORDS = false ∧
      _text_contains_any (tag_text names) DAIRY_KEYWORDS = false ∧
      _text_contains_any (tag_text names) EGG_KEYWORDS = false := by
  rw [infer_dietary_tags, tag_text]
  cases h1 : _text_contains_any (str_lower (String.intercalate " " names)) MEAT_KEYWORDS <;>
    cases h2 : _text_contains_any (str_lower (String.intercalate " " names)) SEAFOOD_KEYWORDS <;>
      cases h3 : _text_contains_any (str_lower (String.intercalate " " names)) DAIRY_KEYWORDS <;>
        cases h4 : _text_contains_any (str_lower (String.intercalate " " names)) EGG_KEYWORDS <;>
          simp [h1, h2, h3, h4, mem_ite_nil]

/-- C8: the Dietary Tag Inferencer emits `vegetarian` exactly when no meat
and no seafood keyword occurs as a substring of the lower-cased space-joined
text blob of the ingredient names, and `vegan` exactly when it is vegetarian
and additionally no dairy and no egg keyword occurs; `["chicken breast",
"rice"]` yields neither tag and `["rice", "black beans", "cumin"]` yields
both. -/
theorem C8_vegetarian_vegan :
    ∀ ingredient_names : List String,
      ("vegetarian" ∈ (infer_dietary_tags ingredient_names).dietary_tags ↔
        ¬ (∃ kw ∈ MEAT_KEYWORDS, strContains (tag_text ingredient_names) kw = true) ∧
        ¬ (∃ kw ∈ SEAFOOD_KEYWORDS, strContains (tag_text ingredient_names) kw = true))
      ∧ ("vegan" ∈ (infer_dietary_tags ingredient_names).dietary_tags ↔
        "vegetarian" ∈ (infer_dietary_tags ingredient_names).dietary_tags ∧
        ¬ (∃ kw ∈ DAIRY_KEYWORDS, strContains (tag_text ingredient_names) kw = true) ∧
        ¬ (∃ kw ∈ EGG_KEYWORDS, strContains (tag_text ingredient_names) kw = true))
      ∧ ("vegetarian" ∉ (infer_dietary_tags ["chicken breast", "rice"]).dietary_tags
        ∧ "vegan" ∉ (infer_dietary_tags ["chicken breast", "rice"]).dietary_tags)
      ∧ ("vegetarian" ∈ (infer_dietary_tags ["rice", "black beans", "cumin"]).dietary_tags
        ∧ "vegan" ∈ (infer_dietary_tags ["rice", "black beans", "cumin"]).dietary_tags) := by
  intro names
  have hex : ∀ kws : List String,
      (∃ kw ∈ kws, strContains (tag_text names) kw = true) ↔
        _text_contains_any (tag_text names) kws = true := by
    intro kws
    rw [_text_contains_any, List.any_eq_true]
  refine ⟨?_, ?_, by decide, by decide⟩
  · rw [mem_vegetarian_iff, hex, hex]
    simp
  · rw [mem_vegan_iff, mem_vegetarian_iff, hex, hex]
    simp [and_assoc]

/-- C10: each boolean flag of the inferencer's output agrees with membership
of the corresponding tag in `dietary_tags`, and `vegan` implies
`vegetarian`. -/
theorem C10_flag_consistency :
    ∀ ingredient_names : List String,
      ((infer_dietary_tags ingredient_names).tag_vegetarian = true ↔
        "vegetarian" ∈ (infer_dietary_tags ingredient_names).dietary_tags)
      ∧ ((infer_dietary_tags ingredient_names).tag_vegan = true ↔
        "vegan" ∈ (infer_dietary_tags ingredient_names).dietary_tags)
      ∧ ((infer_dietary_tags ingredient_names).«tag_gluten-free» = true ↔
        "gluten-free" ∈ (infer_dietary_tags ingredient_names).dietary_tags)
      ∧ ((infer_dietary_tags ingredient_names).«tag_dairy-free» = true ↔
        "dairy-free" ∈ (infer_dietary_tags ingredient_names).dietary_tags)
      ∧ ((infer_dietary_tags ingredient_names).«tag_nut-free» = true ↔
        "nut-free" ∈ (infer_dietary_tags ingredient_names).dietary_tags)
      ∧ ((infer_dietary_tags ingredient_names).«tag_shellfish-free» = true ↔
        "shellfish-free" ∈ (infer_dietary_tags ingredient_names).dietary_tags)
      ∧ ("vegan" ∈ (infer_dietary_tags ingredient_names).dietary_tags →
        "vegetarian" ∈ (infer_dietary_tags ingredient_names).dietary_tags) := by
  intro names
  have hflag : ∀ (tags : List String) (x : String),
      (tags.contains x = true ↔ x ∈ tags) := by
    intro tags x
    rw [List.contains, List.elem_iff]
  refine ⟨?_, ?_, ?_, ?_, ?_, ?_, ?_⟩
  · exact hflag _ _
  · exact hflag _ _
  · exact hflag _ _
  · exact hflag _ _
  · exact hflag _ _
  · exact hflag _ _
  · intro hv
    rw [mem_vegan_iff] at hv
    rw [mem_vegetarian_iff]
    exact ⟨hv.1, hv.2.1⟩

/-- C10 witness: the tie between the flags and the tag list, and the
vegan-implies-vegetarian implication, on a concrete ingredient list. -/
theorem C10_flag_consistency_witness :
    "vegan" ∈ (infer_dietary_tags ["rice", "black beans"]).dietary_tags ∧
    "vegetarian" ∈ (infer_dietary_tags ["rice", "black beans"]).dietary_tags :=
  ⟨by decide, (C10_flag_consistency ["rice", "black beans"]).2.2.2.2.2.2 (by decide)⟩

/-! ## Claim C6: the Filter Builder -/

/-- C6: the Filter Builder produces the conjunction of `tag_<normalized>
= true` requirements, one per (lower-cased, trimmed) restriction token;
`["vegetarian", "gluten-free"]` yields a predicate satisfied exactly by
payloads with both flags true; no restrictions and no skill level yield the
empty predicate, which is not passed to the search at all. -/
theorem C6_filter_conjunction :
    (∀ (ts : List String) (payload_of : String → Option FieldVal),
      filter_holds payload_of (build_recipe_filter ts none) ↔
        ∀ t ∈ ts, payload_of ("tag_" ++ str_trim (str_lower t)) = some (.bool true))
    ∧ build_recipe_filter ["vegetarian", "gluten-free"] none =
        [.eq "tag_vegetarian" true, .eq "tag_gluten-free" true]
    ∧ (∀ payload_of : String → Option FieldVal,
        filter_holds payload_of (build_recipe_filter ["vegetarian", "gluten-free"] none) ↔
          payload_of "tag_vegetarian" = some (.bool true) ∧
          payload_of "tag_gluten-free" = some (.bool true))
    ∧ build_recipe_filter [] none = []
    ∧ search_filter_arg (build_recipe_filter [] none) = none := by
  have hconcrete : build_recipe_filter ["vegetarian", "gluten-free"] none =
      [.eq "tag_vegetarian" true, .eq "tag_gluten-free" true] := by decide
  refine ⟨?_, hconcrete, ?_, by decide, by decide⟩
  · intro ts payload_of
    constructor
    · intro h t ht
      exact h (.eq ("tag_" ++ str_trim (str_lower t)) true)
        (by simpa [build_recipe_filter] using List.mem_map_of_mem _ ht)
    · intro h c hc
      simp only [build_recipe_filter, List.nil_append, List.mem_map] at hc
      obtain ⟨t, ht, rfl⟩ := hc
      exact h t ht
  · intro payload_of
    rw [hconcrete]
    simp [filter_holds, cond_holds]

/-! ## Claim C7: the Query Composer -/

/-- C7 counterexample: the ingredients clause is built unconditionally
(line 100), so with zero ingredient names the code yields
`"Ingredients: . quick"` while the claim's composition (clauses only for
non-empty data) yields `"quick"`. -/
theorem C7_unconditional_ingredients_counterexample :
    query_text [] { additional_prompt := some "quick" } = "Ingredients: . quick"
    ∧ spec_query_text [] { additional_prompt := some "quick" } = "quick"
    ∧ query_text [] { additional_prompt := some "quick" } ≠
        spec_query_text [] { additional_prompt := some "quick" } := by
  refine ⟨by decide, by decide, by decide⟩

/-- C7 amended: restricted to non-empty ingredient-name lists the claimed
composition is exact, and the cited example holds verbatim. -/
theorem C7_nonempty_composition :
    (∀ (ingredient_names : List String) (p : UserPreferences),
      ingredient_names ≠ [] →
        query_text ingredient_names p = spec_query_text ingredient_names p)
    ∧ query_text ["egg", "flour"]
        { cuisine_preferences := ["italian"], additional_prompt := some "quick" } =
      "Ingredients: egg, flour. Cuisine: italian. quick" := by
  constructor
  · intro names p hne
    rw [query_text, spec_query_text, if_pos hne]
    split_ifs <;> simp [List.append_assoc]
  · decide

/-- C7 witness: the amended composition applied to the claim's own example. -/
theorem C7_nonempty_composition_witness :
    ((["egg", "flour"] : List String) ≠ []
      ∧ query_text ["egg", "flour"]
          { cuisine_preferences := ["italian"], additional_prompt := some "quick" } =
        spec_query_text ["egg", "flour"]
          { cuisine_preferences := ["italian"], additional_prompt := some "quick" }) :=
  ⟨by decide, C7_nonempty_composition.1 ["egg", "flour"]
    { cuisine_preferences := ["italian"], additional_prompt := some "quick" } (by decide)⟩

/-! ## Claim C9: short-circuit on zero detected ingredients -/

/-- C9: with zero detected ingredients the direct pipeline returns the empty
response and performs no embedding call and no vector-store search,
whatever the decoder, embedder, store and preferences are. -/
theorem C9_empty_shortcircuit :
    ∀ (jl : String → Option PyVal) (embed_fn : String → List ℚ)
      (search_fn : List ℚ → ℕ → Option Filter → List SearchHit)
      (p : UserPreferences),
      run_direct_pipeline jl embed_fn search_fn [] p =
        (.ok { detected_ingredients := [], recipes := [] }, []) := by
  intro jl embed_fn search_fn p
  rw [run_direct_pipeline, if_pos rfl]

/-! ## Claim C4: the Resilient API Caller -/

/-- C4: for every wrapped call, at most `MAX_RETRIES` attempts are performed
(at most two backoff waits); the waits are exactly the prefix
`2*2^0, 2*2^1, …` of the exponential schedule; a wait (hence a retry) number
`i` happens only because attempt `i` failed with a retryable error; the
outcome — success value or final error, propagated unchanged — is exactly
the outcome of the last attempt performed; a call failing twice retryably
then succeeding returns its success after waits `[2, 4]`; a call failing
once non-retryably propagates immediately with zero waits. -/
theorem C4_retry_policy :
    ∀ (α : Type) (f : ℕ → Except String α),
      (retry_call f).2.length ≤ MAX_RETRIES - 1
      ∧ (retry_call f).2 =
          (List.range (retry_call f).2.length).map (fun i => BASE_BACKOFF * 2 ^ i)
      ∧ (∀ i < (retry_call f).2.length,
          ∃ e, f i = .error e ∧ _is_retryable e = true)
      ∧ (retry_call f).1 = f (retry_call f).2.length
      ∧ (∀ e0 e1 (v : α), f 0 = .error e0 → _is_retryable e0 = true →
          f 1 = .error e1 → _is_retryable e1 = true → f 2 = .ok v →
          retry_call f = (.ok v, [2, 4]))
      ∧ (∀ e, f 0 = .error e → _is_retryable e = false →
          retry_call f = (.error e, [])) := by
  intro α f
  cases h0 : f 0 with
  | ok v0 =>
    have hrc : retry_call f = (.ok v0, []) := by
      simp [retry_call, retry_loop, h0]
    rw [hrc]
    refine ⟨by simp, by simp, by simp, by simp [h0], ?_, ?_⟩
    · intro e0 e1 v hf0 _ _ _ _
      cases hf0
    · intro e hf0 _
      cases hf0
  | error e0 =>
    cases hr0 : _is_retryable e0 with
    | false =>
      have hrc : retry_call f = (.error e0, []) := by
        simp [retry_call, retry_loop, h0, hr0]
      rw [hrc]
      refine ⟨by simp, by simp, by simp, by simp [h0], ?_, ?_⟩
      · intro a0 e1 v hf0 hr0' _ _ _
        cases hf0
        simp [hr0'] at hr0
      · intro e hf0 _
        cases hf0
        rfl
    | true =>
      cases h1 : f 1 with
      | ok v1 =>
        have hrc : retry_call f = (.ok v1, [2]) := by
          simp [retry_call, retry_loop, h0, hr0, h1, MAX_RETRIES, BASE_BACKOFF]
        rw [hrc]
        refine ⟨by norm_num [MAX_RETRIES], by norm_num [BASE_BACKOFF, List.range_succ], ?_, by simp [h1], ?_, ?_⟩
        · intro i hi
          simp [Nat.lt_one_iff] at hi
          subst hi
          exact ⟨e0, h0, hr0⟩
        · intro a0 e1 v hf0 _ hf1 _ _
          cases hf1
        · intro e hf0 hre
          cases hf0
          simp [hre] at hr0
      | error e1 =>
        cases hr1 : _is_retryable e1 with
        | false =>
          have hrc : retry_call f = (.error e1, [2]) := by
            simp [retry_call, retry_loop, h0, hr0, h1, hr1, MAX_RETRIES, BASE_BACKOFF]
          rw [hrc]
          refine ⟨by norm_num [MAX_RETRIES], by norm_num [BASE_BACKOFF, List.range_succ], ?_, by simp [h1], ?_, ?_⟩
          · intro i hi
            simp [Nat.lt_one_iff] at hi
            subst hi
            exact ⟨e0, h0, hr0⟩
          · intro a0 a1 v hf0 _ hf1 hr1' _
            cases hf1
            simp [hr1'] at hr1
          · intro e hf0 hre
            cases hf0
            simp [hre] at hr0
        | true =>
          cases h2 : f 2 with
          | ok v2 =>
            have hrc : retry_call f = (.ok v2, [2, 4]) := by
              simp [retry_call, retry_loop, h0, hr0, h1, hr1, h2,
                MAX_RETRIES, BASE_BACKOFF]
            rw [hrc]
            refine ⟨by norm_num [MAX_RETRIES], by norm_num [BASE_BACKOFF, List.range_succ], ?_, by simp [h2], ?_, ?_⟩
            · intro i hi
              simp at hi
              interval_cases i
              · exact ⟨e0, h0, hr0⟩
              · exact ⟨e1, h1, hr1⟩
            · intro a0 a1 v hf0 _ hf1 _ hf2
              cases hf2
              rfl
            · intro e hf0 hre
              cases hf0
              simp [hre] at hr0
          | error e2 =>
            have hrc : retry_call f = (.error e2, [2, 4]) := by
              simp [retry_call, retry_loop, h0, hr0, h1, hr1, h2,
                MAX_RETRIES, BASE_BACKOFF]
            rw [hrc]
            refine ⟨by norm_num [MAX_RETRIES], by norm_num [BASE_BACKOFF, List.range_succ], ?_, by simp [h2], ?_, ?_⟩
            · intro i hi
              simp at hi
              interval_cases i
              · exact ⟨e0, h0, hr0⟩
              · exact ⟨e1, h1, hr1⟩
            · intro a0 a1 v hf0 _ hf1 _ hf2
              cases hf2
            · intro e hf0 hre
              cases hf0
              simp [hre] at hr0

/-- C4 witness: a call failing with rate-limit errors on the first two
attempts and succeeding on the third returns the success after waits
`[2, 4]`; a call failing immediately with an authentication error
propagates with no waits. -/
theorem C4_retry_policy_witness :
    ((fun i => if i < 2 then .error "HTTP 429 rate limit" else .ok 7 :
        ℕ → Except String ℕ) 0 = .error "HTTP 429 rate limit"
      ∧ _is_retryable "HTTP 429 rate limit" = true
      ∧ retry_call (fun i => if i < 2 then .error "HTTP 429 rate limit" else .ok 7) =
          (.ok 7, [2, 4]))
    ∧ ((fun _ => .error "invalid api key" : ℕ → Except String ℕ) 0 =
        .error "invalid api key"
      ∧ _is_retryable "invalid api key" = false
      ∧ retry_call (fun _ => .error "invalid api key" : ℕ → Except String ℕ) =
          (.error "invalid api key", [])) :=
  ⟨⟨rfl, by decide,
    (C4_retry_policy ℕ (fun i => if i < 2 then .error "HTTP 429 rate limit" else .ok 7)).2.2.2.2.1
      "HTTP 429 rate limit" "HTTP 429 rate limit" 7
      rfl (by decide) rfl (by decide) rfl⟩,
   ⟨rfl, by decide,
    (C4_retry_policy ℕ (fun _ => .error "invalid api key")).2.2.2.2.2
      "invalid api key" rfl (by decide)⟩⟩

/-! ## Claim C3: ranked-output invariants -/

/-- Members of an insertion. -/
theorem mem_insert_desc {a x : RecipeResult} {l : List RecipeResult} :
    a ∈ insert_desc x l ↔ a = x ∨ a ∈ l := by
  induction l with
  | nil => simp [insert_desc]
  | cons y ys ih =>
    rw [insert_desc]
    split
    · simp
    · rw [List.mem_cons, ih]
      simp [List.mem_cons]
      tauto

/-- Members of the sorted list are the members of the input. -/
theorem mem_sort_recipes {a : RecipeResult} {l : List RecipeResult} :
    a ∈ sort_recipes l ↔ a ∈ l := by
  induction l with
  | nil => simp [sort_recipes]
  | cons x xs ih =>
    rw [sort_recipes, mem_insert_desc, ih, List.mem_cons]

/-- Insertion preserves the descending-`match` pairwise order. -/
theorem pairwise_insert_desc (x : RecipeResult) (l : List RecipeResult)
    (h : l.Pairwise fun a b => b.«match» ≤ a.«match») :
    (insert_desc x l).Pairwise fun a b => b.«match» ≤ a.«match» := by
  induction l with
  | nil => simp [insert_desc]
  | cons y ys ih =>
    rw [List.pairwise_cons] at h
    rw [insert_desc]
    split
    · rename_i hle
      rw [List.pairwise_cons]
      refine ⟨?_, List.pairwise_cons.mpr h⟩
      intro z hz
      rcases List.mem_cons.mp hz with rfl | hz
      · exact hle
      · exact le_trans (h.1 z hz) hle
    · rename_i hlt
      rw [List.pairwise_cons]
      refine ⟨?_, ih h.2⟩
      intro z hz
      rcases mem_insert_desc.mp hz with rfl | hz
      · omega
      · exact h.1 z hz

/-- The sort output is pairwise non-increasing in `match`. -/
theorem pairwise_sort_recipes (l : List RecipeResult) :
    (sort_recipes l).Pairwise fun a b => b.«match» ≤ a.«match» := by
  induction l with
  | nil => simp [sort_recipes]
  | cons x xs ih => exact pairwise_insert_desc x _ ih

/-- Inserting commutes with filtering one `match` value: elements with a
common `match` value keep their relative positions (stability). -/
theorem filter_insert_desc (x : RecipeResult) (l : List RecipeResult) (m : ℤ) :
    (insert_desc x l).filter (fun r => r.«match» == m) =
      (x :: l).filter (fun r => r.«match» == m) := by
  induction l with
  | nil => rfl
  | cons y ys ih =>
    rw [insert_desc]
    split
    · rfl
    · rename_i hlt
      cases hx : (x.«match» == m) <;> cases hy : (y.«match» == m)
      · simp [List.filter_cons, hx, hy, ih]
      · simp [List.filter_cons, hx, hy, ih]
      · simp [List.filter_cons, hx, hy, ih]
      · exfalso
        have hx' : x.«match» = m := by simpa using hx
        have hy' : y.«match» = m := by simpa using hy
        omega

/-- Sorting commutes with filtering one `match` value. -/
theorem filter_sort_recipes (l : List RecipeResult) (m : ℤ) :
    (sort_recipes l).filter (fun r => r.«match» == m) =
      l.filter (fun r => r.«match» == m) := by
  induction l with
  | nil => rfl
  | cons x xs ih =>
    rw [sort_recipes, filter_insert_desc, List.filter_cons, List.filter_cons, ih]

/-- The blended score is clamped into `[0, 100]` whatever its inputs. -/
theorem blended_of_bounds (m v : ℤ) :
    0 ≤ blended_of m v ∧ blended_of m v ≤ 100 := by
  rw [blended_of_eval]
  omega

/-- Every record a successful `process_hit` returns carries a clamped
blended score. -/
theorem process_hit_match_bounds (jl : String → Option PyVal) (r : SearchHit)
    (names : List String) (rec : RecipeResult)
    (h : process_hit jl r names = .ok rec) :
    0 ≤ rec.«match» ∧ rec.«match» ≤ 100 := by
  simp only [process_hit] at h
  split at h
  · cases h
  · split at h
    · cases h
    · split at h
      · cases h
      · cases h
        exact blended_of_bounds _ _

/-- Score bounds for every record of a successful formatting loop. -/
theorem format_loop_match_bounds (jl : String → Option PyVal)
    (names : List String) :
    ∀ (hits : List SearchHit) (pre : List RecipeResult),
      format_loop jl hits names = .ok pre →
      ∀ rec ∈ pre, 0 ≤ rec.«match» ∧ rec.«match» ≤ 100 := by
  intro hits
  induction hits with
  | nil =>
    intro pre h rec hrec
    rw [format_loop] at h
    cases h
    cases hrec
  | cons r rs ih =>
    intro pre h rec hrec
    rw [format_loop] at h
    split at h
    · cases h
    · rename_i rec0 h0
      split at h
      · cases h
      · rename_i recs hrecs
        cases h
        rcases List.mem_cons.mp hrec with rfl | hmem
        · exact process_hit_match_bounds jl r names rec h0
        · exact ih recs hrecs rec hmem

/-- C3: whenever the Ranker formats a hit list successfully, its output is
the stable descending sort of the per-hit records: every `match` lies in
`[0,100]`, the list is pairwise non-increasing by `match`, and the records
sharing any given `match` value appear exactly as in store order (the order
`format_loop` produced them). -/
theorem C3_ranked_output_invariants :
    ∀ (jl : String → Option PyVal) (hits : List SearchHit) (names : List String)
      (pre recipes : List RecipeResult),
      (∀ h ∈ hits, 0 ≤ h.score ∧ h.score ≤ 1) →
      format_loop jl hits names = .ok pre →
      _format_results jl hits names = .ok recipes →
      recipes = sort_recipes pre
      ∧ (∀ r ∈ recipes, 0 ≤ r.«match» ∧ r.«match» ≤ 100)
      ∧ recipes.Pairwise (fun a b => b.«match» ≤ a.«match»)
      ∧ (∀ m : ℤ, recipes.filter (fun r => r.«match» == m) =
          pre.filter (fun r => r.«match» == m)) := by
  intro jl hits names pre recipes _hscores hloop hfmt
  have hsorted : _format_results jl hits names = .ok (sort_recipes pre) := by
    rw [_format_results, hloop]
  rw [hsorted] at hfmt
  cases hfmt
  refine ⟨rfl, ?_, pairwise_sort_recipes pre, fun m => filter_sort_recipes pre m⟩
  intro r hr
  exact format_loop_match_bounds jl names hits pre hloop r (mem_sort_recipes.mp hr)

/-- C3 witness: the invariants on a concrete one-hit search result with
vector score `1/2` and a fully matched ingredient list. -/
theorem C3_ranked_output_invariants_witness :
    (∀ h ∈ [sample_hit], 0 ≤ h.score ∧ h.score ≤ 1)
    ∧ format_loop json_loads [sample_hit] ["egg"] = .ok [sample_ranked]
    ∧ _format_results json_loads [sample_hit] ["egg"] = .ok [sample_ranked]
    ∧ ([sample_ranked] = sort_recipes [sample_ranked]
      ∧ (∀ r ∈ [sample_ranked], 0 ≤ r.«match» ∧ r.«match» ≤ 100)
      ∧ ([sample_ranked] : List RecipeResult).Pairwise
          (fun a b => b.«match» ≤ a.«match»)
      ∧ (∀ m : ℤ, ([sample_ranked] : List RecipeResult).filter
            (fun r => r.«match» == m) =
          ([sample_ranked] : List RecipeResult).filter
            (fun r => r.«match» == m))) := by
  have hscores : ∀ h ∈ [sample_hit], 0 ≤ h.score ∧ h.score ≤ 1 := by
    intro h hh
    rcases List.mem_singleton.mp hh with rfl
    exact ⟨by decide, by decide⟩
  have hcount : count_matches [str_lower "egg"] [str_lower "egg"] = 1 := by decide
  have hpct : match_pct_of 1 1 = 100 := by
    rw [match_pct_of_eval]; decide
  have hvec : vector_match_of (mkRat 1 2) = 50 := by
    rw [vector_match_of_mkRat]; decide
  have hbl : blended_of 100 50 = 70 := by
    rw [blended_of_eval]; decide
  have hloop : format_loop json_loads [sample_hit] ["egg"] = .ok [sample_ranked] := by
    simp [format_loop, process_hit, sample_hit, sample_ranked, decode_field,
      py_iter, lower_all, py_lower, py_len, hcount, hpct, hvec, hbl]
  have hfmt : _format_results json_loads [sample_hit] ["egg"] = .ok [sample_ranked] := by
    rw [_format_results, hloop]
    rfl
  exact ⟨hscores, hloop, hfmt,
    C3_ranked_output_invariants json_loads [sample_hit] ["egg"]
      [sample_ranked] [sample_ranked] hscores hloop hfmt⟩

/-! ## Claim C5: defensive decoding of payload fields -/

/-- C5 counterexample: a payload whose `ingredients` field holds the string
`"5"` is valid JSON (the number `5`), so the fallback does not apply; the
loop then iterates over an integer and raises `TypeError` — formatting a
hit does raise for some malformed ingredient sub-fields. -/
theorem C5_nonsequence_counterexample :
    json_loads "5" = some (.num 5)
    ∧ process_hit json_loads { payload := { ingredients := .str "5" } } [] = .error ()
    ∧ _format_results json_loads
        [{ payload := { ingredients := .str "5" } }] [] = .error () := by
  exact ⟨rfl, rfl, rfl⟩

/-- C5 amended: when the `ingredients` field is a string on which the JSON
decoder fails, the whole raw string becomes a one-element list and the hit
formats normally; the `directions` field never raises whatever value it
holds (it is decoded but not iterated); but a string field that decodes to
a non-sequence raises. -/
theorem C5_parse_failure_fallback :
    ∀ (jl : String → Option PyVal) (s : String) (d : PyVal) (idv : ℤ) (sc : ℚ)
      (t desc cat sk : String) (tags names : List String),
      jl s = none →
      decode_field jl (.str s) = .list [.str s]
      ∧ ∃ rec, process_hit jl
          { id := idv, score := sc,
            payload := { title := t, description := desc, category := cat,
                         skill_level := sk, dietary_tags := tags,
                         ingredients := .str s, directions := d } } names = .ok rec
        ∧ rec.ingredients = .list [.str s]
        ∧ rec.directions = decode_field jl d := by
  intro jl s d idv sc t desc cat sk tags names hfail
  have hdec : decode_field jl (.str s) = .list [.str s] := by
    simp [decode_field, hfail]
  refine ⟨hdec, ?_⟩
  refine ⟨{ id := idv, title := t,
            «match» := blended_of
              (match_pct_of (count_matches (names.map str_lower) [str_lower s]) 1)
              (vector_match_of sc),
            ingredients := .list [.str s], description := desc,
            directions := decode_field jl d, category := cat,
            dietary_tags := tags, skill_level := sk }, ?_, rfl, rfl⟩
  simp [process_hit, hdec, py_iter, lower_all, py_lower, py_len]

/-- C5 witness: the fallback on a concrete unparsable string, with a
number stored under `directions`, formatted without raising. -/
theorem C5_parse_failure_fallback_witness :
    json_loads "[oops" = none
    ∧ decode_field json_loads (.str "[oops") = .list [.str "[oops"] := by
  have h : json_loads "[oops" = none := rfl
  exact ⟨h, (C5_parse_failure_fallback json_loads "[oops" (.num 3) 0 0
    "" "" "" "" [] ["x"] h).1⟩

end TreatYourShelf
